import Mathlib

/-!
Shallow embedding of the trial-analysis pipeline of the TT-Learning-Effect
repository (src/analysis_core.py and src/LearningEffectAnalysis.py), together
with proofs settling the frozen claims about it.

Numeric trial values are modelled as rationals; trial files are modelled as
already-parsed (variable, value) series (the Excel parsing itself is done by
the external pandas library); timeline files are modelled as named-column
tables of string cells.  Python exceptions are modelled by the `PyErr`
inductive: the code raises `FileNotFoundError` (constructor `notFound`) and
`ValueError` (constructors `schemaError`, `formatError`, `insufficientData`,
`valueErr`, one per raise site, following the spec's taxonomy names); any
other exception is `unexpected`, and `nameError` models the `NameError`
raised when an undefined Python name is evaluated.
-/

/-- String helpers mirroring the Python `str` operations used by the source. -/
def strToLower (s : String) : String := String.mk (s.toList.map Char.toLower)

def trimChars (cs : List Char) : List Char :=
  ((cs.dropWhile Char.isWhitespace).reverse.dropWhile Char.isWhitespace).reverse

/-- Python `str.strip()`. -/
def strTrim (s : String) : String := String.mk (trimChars s.toList)

/-- Python `s.startswith(p)` (on exact characters). -/
def strStartsWith (s p : String) : Bool := p.toList.isPrefixOf s.toList

def listContainsSeg : List Char → List Char → Bool
  | hay, pat =>
    match hay with
    | [] => pat.isEmpty
    | _ :: t => pat.isPrefixOf hay || listContainsSeg t pat

/-- Python `pat in s` (substring containment). -/
def strContains (s pat : String) : Bool := listContainsSeg s.toList pat.toList

/-- Python exceptions, tagged per raise site following the spec's taxonomy. -/
inductive PyErr where
  | notFound (msg : String)
  | schemaError (msg : String)
  | formatError (msg : String)
  | insufficientData (msg : String)
  | valueErr (msg : String)
  | unexpected (msg : String)
  | nameError (msg : String)
deriving DecidableEq

def pyErrMsg : PyErr → String
  | .notFound m => m
  | .schemaError m => m
  | .formatError m => m
  | .insufficientData m => m
  | .valueErr m => m
  | .unexpected m => m
  | .nameError m => m

/-- The `except (FileNotFoundError, ValueError)` clause of both run loops:
`notFound` models `FileNotFoundError` and the four value-error tags model
`ValueError`; everything else falls to the broad `except Exception`. -/
def isCaughtErr : PyErr → Bool
  | .notFound _ => true
  | .schemaError _ => true
  | .formatError _ => true
  | .insufficientData _ => true
  | .valueErr _ => true
  | .unexpected _ => false
  | .nameError _ => false

def resultIsNotFound {α : Type} : Except PyErr α → Bool
  | .error (.notFound _) => true
  | _ => false

def resultIsInsufficient {α : Type} : Except PyErr α → Bool
  | .error (.insufficientData _) => true
  | _ => false

def resultIsSchemaErr {α : Type} : Except PyErr α → Bool
  | .error (.schemaError _) => true
  | _ => false

def resultIsFormatErr {α : Type} : Except PyErr α → Bool
  | .error (.formatError _) => true
  | _ => false

/-- One trial file: its filename and its parsed (Variable, Value) series.
The parsing of the raw Excel sheet into the series (`load_series_from_file`
plus the Variable/Value column heuristics) is external pandas work; the
model carries the resulting series in the file. -/
structure TrialFile where
  name : String
  series : List (String × ℚ)
deriving DecidableEq

/-- `load_series_from_file`: returns the file's parsed series. -/
def load_series_from_file (f : TrialFile) : List (String × ℚ) := f.series

/-- One timeline file: filename and its table, one (column name, cells) pair
per column, cells already rendered as strings (`astype(str)`). -/
structure TimelineFile where
  name : String
  cols : List (String × List String)
deriving DecidableEq

/-- A participant directory: its name and its subdirectories (name → files). -/
structure PartDir where
  name : String
  subdirs : List (String × List TrialFile)
deriving DecidableEq

/-- `extract_trial_number`: Python `re.search(r"(\d+)\.xls", name, re.IGNORECASE)`,
returning the matched integer or -1.  The regex finds the leftmost maximal
digit run that is immediately followed by ".xls" (case-insensitive). -/
def digitsToNat (ds : List Char) : Nat :=
  ds.foldl (fun a c => 10 * a + (c.toNat - 48)) 0

def xlsAfter (cs : List Char) : Bool :=
  match cs with
  | '.' :: x :: l :: s :: _ =>
    x.toLower == 'x' && l.toLower == 'l' && s.toLower == 's'
  | _ => false

def trialNumSearch : List Char → Option Nat
  | [] => none
  | c :: rest =>
    let ds := (c :: rest).takeWhile Char.isDigit
    if ds.isEmpty then trialNumSearch rest
    else if xlsAfter ((c :: rest).drop ds.length) then some (digitsToNat ds)
    else trialNumSearch rest

def extract_trial_number (name : String) : Int :=
  match trialNumSearch name.toList with
  | some n => (n : Int)
  | none => -1

/-- `glob("*.xls*")` membership test: the filename contains ".xls". -/
def globXls (name : String) : Bool := strContains name ".xls"

/-- Stable ascending insertion by integer key (Python `sorted(key=...)`). -/
def insertByKey (key : TrialFile → Int) (x : TrialFile) : List TrialFile → List TrialFile
  | [] => [x]
  | y :: ys => if key y < key x then y :: insertByKey key x ys else x :: y :: ys

def sortByKey (key : TrialFile → Int) : List TrialFile → List TrialFile
  | [] => []
  | x :: xs => insertByKey key x (sortByKey key xs)

/-- Python list slice `xs[-n:]` for a nonnegative `n` (`xs[-0:]` is `xs`). -/
def pyLastSlice {α : Type} (n : Nat) (xs : List α) : List α :=
  if n = 0 then xs else xs.drop (xs.length - n)

/-- The variable names of a series, in row order. -/
def seriesKeys (s : List (String × ℚ)) : List String := s.map Prod.fst

/-- Deduplicating append, preserving first-appearance order. -/
def dedupAppend (acc : List String) (ks : List String) : List String :=
  ks.foldl (fun a k => if k ∈ a then a else a ++ [k]) acc

def insertStr (x : String) : List String → List String
  | [] => [x]
  | y :: ys => if x ≤ y then x :: y :: ys else y :: insertStr x ys

def sortStrs (l : List String) : List String := l.foldr insertStr []

/-- The index of `pd.concat(series_list, axis=1)`: for identical indexes the
common index is kept as-is; for differing indexes pandas takes the sorted
union of the labels. -/
def unionKeys : List (List String) → List String
  | [] => []
  | k :: rest =>
    if ∀ t ∈ rest, t = k then k
    else sortStrs ((k :: rest).foldl dedupAppend [])

/-- `series.loc[v]` style lookup: first row carrying variable `v`. -/
def lookupVar (s : List (String × ℚ)) (v : String) : Option ℚ := List.lookup v s

/-- The values of variable `v` in the block's files that carry `v`
(pandas aligns missing rows as NaN and `.mean()` skips them). -/
def blockVals (block : List (List (String × ℚ))) (v : String) : List ℚ :=
  block.filterMap (fun s => lookupVar s v)

/-- Rational arithmetic via `mkRat` (definitionally reducible, unlike the
ambient field operations); `qAdd_eq`, `qSub_eq`, `qSum_eq` and `qMean_eq`
below prove them equal to the standard operations on `ℚ`. -/
def qAdd (a b : ℚ) : ℚ :=
  mkRat (a.num * (b.den : Int) + b.num * (a.den : Int)) (a.den * b.den)

def qSub (a b : ℚ) : ℚ :=
  mkRat (a.num * (b.den : Int) - b.num * (a.den : Int)) (a.den * b.den)

def qSum (l : List ℚ) : ℚ := l.foldr qAdd 0

/-- `np.mean`: the sum of the values divided by their count. -/
def qMean (l : List ℚ) : ℚ := mkRat (qSum l).num ((qSum l).den * l.length)

/-- Error-propagating left-to-right map, as a Python list comprehension. -/
def exceptMapM {α β : Type} (g : α → Except PyErr β) : List α → Except PyErr (List β)
  | [] => .ok []
  | a :: as =>
    match g a with
    | .error e => .error e
    | .ok b =>
      match exceptMapM g as with
      | .error e => .error e
      | .ok bs => .ok (b :: bs)

/-- The dict comprehension
`{var: (first_df.loc[var].mean(), last_df.loc[var].mean()) for var in first_df.index}`:
iterates the concatenated first block's index; a variable absent from every
last-block series makes `last_df.loc[var]` raise `KeyError` (an unclassified
exception). -/
def dictEntry (firstB lastB : List (List (String × ℚ))) (v : String) :
    Except PyErr (String × (ℚ × ℚ)) :=
  if (blockVals firstB v).isEmpty || (blockVals lastB v).isEmpty then
    .error (.unexpected ("KeyError: '" ++ v ++ "'"))
  else
    .ok (v, (qMean (blockVals firstB v), qMean (blockVals lastB v)))

def dictBuild (firstB lastB : List (List (String × ℚ))) :
    Except PyErr (List (String × (ℚ × ℚ))) :=
  exceptMapM (dictEntry firstB lastB) (unionKeys (firstB.map seriesKeys))

/-- `find_timeline_file`: first timeline-directory file (glob "*.xls*")
whose lowercased name starts with `{participant}_`, contains `_{condition}_`
and contains "timeline"; `FileNotFoundError` when none (also when the
timeline directory is not a directory, modelled as `none`). -/
def find_timeline_file (part : PartDir) (timeline_dir : Option (List TimelineFile))
    (condition : String) : Except PyErr TimelineFile :=
  let participant_id := strToLower part.name
  let condition_lower := strToLower condition
  let found :=
    (match timeline_dir with
     | none => []
     | some fs => fs.filter (fun f =>
        globXls f.name &&
        strStartsWith (strToLower f.name) (participant_id ++ "_") &&
        strContains (strToLower f.name) ("_" ++ condition_lower ++ "_") &&
        strContains (strToLower f.name) "timeline"))
  match found with
  | [] => .error (.notFound ("No timeline file for P '" ++ part.name ++
      "'/Cond '" ++ condition ++ "'"))
  | f :: _ => .ok f

/-- First column whose lowercased name contains `pat`
(`next(c for c in df.columns if pat in c.lower())`). -/
def findColumn (pat : String) (cols : List (String × List String)) :
    Option (String × List String) :=
  cols.find? (fun c => strContains (strToLower c.1) pat)

/-- `load_timeline`: composite identifiers, one per row, in row order. -/
def load_timeline (part : PartDir) (timeline_dir : Option (List TimelineFile))
    (condition : String) : Except PyErr (List String) :=
  match find_timeline_file part timeline_dir condition with
  | .error e => .error e
  | .ok tf =>
    match findColumn "type" tf.cols, findColumn "trial" tf.cols with
    | some tc, some ic =>
      .ok (List.zipWith (fun ev ix => strToLower (strTrim ev) ++ strTrim ix) tc.2 ic.2)
    | _, _ => .error (.schemaError "Could not find 'type' and 'trial' columns in timeline file.")

/-- `load_trial_series_from_id`: extracts the alphabetic and digit characters
of the identifier, resolves the outcome subdirectory, and loads the first
globbed file whose lowercased name starts with one of the two candidate
patterns (each ending in a literal dot). -/
def load_trial_series_from_id (part : PartDir) (condition trial_id : String) :
    Except PyErr (List (String × ℚ)) :=
  let outcome_str := String.mk (trial_id.toList.filter Char.isAlpha)
  let number_str := String.mk (trial_id.toList.filter Char.isDigit)
  if (trial_id.toList.filter Char.isAlpha).isEmpty ||
     (trial_id.toList.filter Char.isDigit).isEmpty then
    .error (.formatError ("Invalid trial_id format from timeline: '" ++ trial_id ++ "'"))
  else
    match List.lookup outcome_str part.subdirs with
    | none => .error (.notFound ("Subfolder '" ++ outcome_str ++ "' not found in " ++ part.name))
    | some files =>
      let base_name := part.name ++ "_" ++ condition ++ "_"
      let pattern_full := base_name ++ outcome_str ++ number_str ++ "."
      let pattern_abbr := base_name ++ String.mk (outcome_str.toList.take 1) ++ number_str ++ "."
      match (files.filter (fun f => globXls f.name)).find? (fun f =>
          strStartsWith (strToLower f.name) (strToLower pattern_full) ||
          strStartsWith (strToLower f.name) (strToLower pattern_abbr)) with
      | none => .error (.notFound ("No file matching '" ++ pattern_full ++ "' or '" ++
          pattern_abbr ++ "' found"))
      | some f => .ok (load_series_from_file f)

/-- `gather_means_timeline`. -/
def gather_means_timeline (part : PartDir) (timeline_dir : Option (List TimelineFile))
    (condition : String) (n : Nat) : Except PyErr (List (String × (ℚ × ℚ))) :=
  match load_timeline part timeline_dir condition with
  | .error e => .error e
  | .ok timeline =>
    if timeline.length < 2 * n then
      .error (.insufficientData (part.name ++ " has only " ++ toString timeline.length ++
        " events (need at least " ++ toString (2 * n) ++ ")"))
    else
      match exceptMapM (load_trial_series_from_id part condition) (timeline.take n) with
      | .error e => .error e
      | .ok firstB =>
        if firstB.isEmpty then .error (.valueErr "No objects to concatenate")
        else
          match exceptMapM (load_trial_series_from_id part condition) (pyLastSlice n timeline) with
          | .error e => .error e
          | .ok lastB =>
            if lastB.isEmpty then .error (.valueErr "No objects to concatenate")
            else dictBuild firstB lastB

/-- The glob-then-number filter of `gather_means_outcome`:
`[f for f in outcome_dir.glob("*.xls*") if extract_trial_number(f) != -1]`. -/
def validTrialFiles (files : List TrialFile) : List TrialFile :=
  (files.filter (fun f => globXls f.name)).filter
    (fun f => extract_trial_number f.name != -1)

/-- The valid trial files of a directory, ascending by extracted number. -/
def sortedValid (dirFiles : List TrialFile) : List TrialFile :=
  sortByKey (fun f => extract_trial_number f.name) (validTrialFiles dirFiles)

/-- `gather_means_outcome`. -/
def gather_means_outcome (part : PartDir) (condition outcome : String) (n : Nat) :
    Except PyErr (List (String × (ℚ × ℚ))) :=
  match List.lookup (strToLower outcome) part.subdirs with
  | none => .error (.notFound ("Outcome folder '" ++ strToLower outcome ++
      "' not found for participant " ++ part.name))
  | some dirFiles =>
    let files := sortedValid dirFiles
    if files.isEmpty then .error (.notFound "No valid trial files found")
    else if files.length < 2 * n then
      .error (.insufficientData (part.name ++ " has only " ++ toString files.length ++
        " '" ++ outcome ++ "' files (need at least " ++ toString (2 * n) ++ ")"))
    else
      let firstB := (files.take n).map load_series_from_file
      let lastB := (pyLastSlice n files).map load_series_from_file
      if firstB.isEmpty then .error (.valueErr "No objects to concatenate")
      else if lastB.isEmpty then .error (.valueErr "No objects to concatenate")
      else dictBuild firstB lastB

/-- An entry of a condition directory: a plain file (skipped by the loop) or
a participant directory. -/
inductive PEntry where
  | pfile (name : String)
  | pdir (d : PartDir)
deriving DecidableEq

/-- A condition directory: its name and its entries, in enumeration order. -/
structure CondDir where
  name : String
  children : List PEntry
deriving DecidableEq

/-- An entry of the data root: a plain file or a condition-candidate
directory. -/
inductive REntry where
  | rfile (name : String)
  | rdir (d : CondDir)
deriving DecidableEq

/-- The `analysis_params` dictionary handed to `run_analysis`
(`data_root` is passed separately as the filesystem model). -/
structure AnalysisParams where
  mode : String
  outcome : String
  n_trials : Nat
  timeline_dir : Option (List TimelineFile)
deriving DecidableEq

/-- The external scipy calls, as oracles: `shapiro` returns (statistic, p);
`ttest_rel` additionally receives the `nan_policy` string; `wilcoxon`
returns (statistic, p). -/
structure StatsOracles where
  shapiro : List ℚ → ℚ × ℚ
  ttest_rel : List ℚ → List ℚ → String → ℚ × ℚ
  wilcoxon : List ℚ → List ℚ → ℚ × ℚ

/-- One emitted result-table row. -/
structure ResultRow where
  condition : String
  varName : String
  sampleN : Nat
  mean_first : ℚ
  mean_last : ℚ
  shapiro_p : ℚ
  test : String
  test_stat : ℚ
  p_value : ℚ
deriving DecidableEq

/-- Per-condition aggregate: variable → (first means, last means), in
insertion order (`agg.setdefault(var, ...)` then append). -/
def aggAdd : List (String × (List ℚ × List ℚ)) → String → ℚ → ℚ →
    List (String × (List ℚ × List ℚ))
  | [], v, m1, m2 => [(v, ([m1], [m2]))]
  | (k, (fs, ls)) :: rest, v, m1, m2 =>
    if k == v then (k, (fs ++ [m1], ls ++ [m2])) :: rest
    else (k, (fs, ls)) :: aggAdd rest v m1 m2

def aggAddMeans (agg : List (String × (List ℚ × List ℚ)))
    (means : List (String × (ℚ × ℚ))) : List (String × (List ℚ × List ℚ)) :=
  means.foldl (fun a p => aggAdd a p.1 p.2.1 p.2.2) agg

/-- The `Condition` label of a row: decorated with the outcome under outcome
mode. -/
def condLabel (p : AnalysisParams) (condition : String) : String :=
  if p.mode == "outcome" then condition ++ " (" ++ p.outcome ++ ")" else condition

/-- One per-variable statistics step of `run_analysis`: normality check on
the elementwise differences, then either the paired t-test (with
`nan_policy="omit"`) or the Wilcoxon branch, degenerate (0, 1) when every
difference is zero. -/
def statsRow (o : StatsOracles) (label v : String) (fs ls : List ℚ) : ResultRow :=
  let diffs := List.zipWith qSub fs ls
  let sh_p := (o.shapiro diffs).2
  if sh_p > mkRat 1 20 then
    let tp := o.ttest_rel fs ls "omit"
    ⟨label, v, fs.length, qMean fs, qMean ls, sh_p, "Paired t-test", tp.1, tp.2⟩
  else
    let wp := if diffs.any (fun d => d != 0) then o.wilcoxon fs ls else ((0 : ℚ), (1 : ℚ))
    ⟨label, v, fs.length, qMean fs, qMean ls, sh_p, "Wilcoxon", wp.1, wp.2⟩

def statsRows (o : StatsOracles) (label : String)
    (agg : List (String × (List ℚ × List ℚ))) : List ResultRow :=
  agg.map (fun p => statsRow o label p.1 p.2.1 p.2.2)

/-- The mode router inside the participant loop. -/
def gatherFor (p : AnalysisParams) (condition : String) (part : PartDir) :
    Except PyErr (List (String × (ℚ × ℚ))) :=
  if p.mode == "timeline" then
    gather_means_timeline part p.timeline_dir condition p.n_trials
  else
    gather_means_outcome part condition p.outcome p.n_trials

def skipMsg (pname : String) (e : PyErr) : String :=
  "  - Skipping P '" ++ pname ++ "': " ++ pyErrMsg e

def unexpectedMsg (pname : String) : String :=
  "  - An unexpected error occurred with P '" ++ pname ++ "'. Skipping."

/-- The text of `traceback.format_exc()` (external traceback module). -/
def format_exc (e : PyErr) : String :=
  "Traceback (most recent call last): " ++ pyErrMsg e

namespace analysis_core

/-- The participant loop of `analysis_core.run_analysis`.  `analysis_core.py`
never imports `traceback`, so the broad `except Exception` handler logs its
first message and then raises `NameError` while evaluating
`traceback.format_exc()`, aborting the run. -/
def participant_loop (p : AnalysisParams) (condition : String) :
    List PEntry → List (String × (List ℚ × List ℚ)) →
    List String × Except PyErr (List (String × (List ℚ × List ℚ)))
  | [], agg => ([], .ok agg)
  | .pfile _ :: rest, agg => participant_loop p condition rest agg
  | .pdir part :: rest, agg =>
    match gatherFor p condition part with
    | .ok means => participant_loop p condition rest (aggAddMeans agg means)
    | .error e =>
      if isCaughtErr e then
        let r := participant_loop p condition rest agg
        (skipMsg part.name e :: r.1, r.2)
      else
        ([unexpectedMsg part.name], .error (.nameError "name 'traceback' is not defined"))

/-- The condition loop of `analysis_core.run_analysis`. -/
def condition_loop (o : StatsOracles) (p : AnalysisParams) :
    List REntry → List String × Except PyErr (List ResultRow)
  | [] => ([], .ok [])
  | .rfile _ :: rest => condition_loop o p rest
  | .rdir cd :: rest =>
    if strToLower cd.name == "serve" || strToLower cd.name == "return" then
      let pl := participant_loop p cd.name cd.children []
      match pl.2 with
      | .error e => (("Processing Condition: " ++ cd.name ++ "...") :: pl.1, .error e)
      | .ok agg =>
        let rows := statsRows o (condLabel p cd.name) agg
        let r := condition_loop o p rest
        (("Processing Condition: " ++ cd.name ++ "...") :: pl.1 ++ r.1,
         r.2.map (fun more => rows ++ more))
    else
      let r := condition_loop o p rest
      (("Ignoring non-target folder: " ++ cd.name) :: r.1, r.2)

/-- `analysis_core.run_analysis`: returns the emitted log lines together with
the result table, or the exception that escaped. -/
def run_analysis (o : StatsOracles) (p : AnalysisParams) (data_root : List REntry) :
    List String × Except PyErr (List ResultRow) :=
  condition_loop o p data_root

end analysis_core

namespace LearningEffectAnalysis

/-- The participant loop of `LearningEffectAnalysis.run_analysis`; this file
imports `traceback`, so the broad handler logs the traceback text and the
loop continues. -/
def participant_loop (p : AnalysisParams) (condition : String) :
    List PEntry → List (String × (List ℚ × List ℚ)) →
    List String × Except PyErr (List (String × (List ℚ × List ℚ)))
  | [], agg => ([], .ok agg)
  | .pfile _ :: rest, agg => participant_loop p condition rest agg
  | .pdir part :: rest, agg =>
    match gatherFor p condition part with
    | .ok means => participant_loop p condition rest (aggAddMeans agg means)
    | .error e =>
      if isCaughtErr e then
        let r := participant_loop p condition rest agg
        (skipMsg part.name e :: r.1, r.2)
      else
        let r := participant_loop p condition rest agg
        (unexpectedMsg part.name :: format_exc e :: r.1, r.2)

/-- The condition loop of `LearningEffectAnalysis.run_analysis`. -/
def condition_loop (o : StatsOracles) (p : AnalysisParams) :
    List REntry → List String × Except PyErr (List ResultRow)
  | [] => ([], .ok [])
  | .rfile _ :: rest => condition_loop o p rest
  | .rdir cd :: rest =>
    if strToLower cd.name == "serve" || strToLower cd.name == "return" then
      let pl := participant_loop p cd.name cd.children []
      match pl.2 with
      | .error e => (("Processing Condition: " ++ cd.name ++ "...") :: pl.1, .error e)
      | .ok agg =>
        let rows := statsRows o (condLabel p cd.name) agg
        let r := condition_loop o p rest
        (("Processing Condition: " ++ cd.name ++ "...") :: pl.1 ++ r.1,
         r.2.map (fun more => rows ++ more))
    else
      let r := condition_loop o p rest
      (("Ignoring non-target folder: " ++ cd.name) :: r.1, r.2)

/-- `LearningEffectAnalysis.run_analysis`. -/
def run_analysis (o : StatsOracles) (p : AnalysisParams) (data_root : List REntry) :
    List String × Except PyErr (List ResultRow) :=
  condition_loop o p data_root

end LearningEffectAnalysis

/-! Concrete states used to evaluate the pipeline at specific inputs. -/

/-- A constant stats oracle (concrete stand-in for the scipy calls). -/
def oZero : StatsOracles :=
  ⟨fun _ => (0, 0), fun _ _ _ => (0, 0), fun _ _ => (0, 0)⟩

/-- Oracle whose Wilcoxon result is visibly nonzero. -/
def oC2 : StatsOracles :=
  ⟨fun _ => (0, 0), fun _ _ _ => (0, 0), fun _ _ => (5, 5)⟩

/-- The end-to-end scenario files of the spec: four win trials with
A = [1, 2, 3, 4] and B = [10, 20, 30, 40]. -/
def winFiles4 : List TrialFile :=
  [⟨"P1_Serve_win1.xls", [("A", 1), ("B", 10)]⟩,
   ⟨"P1_Serve_win2.xls", [("A", 2), ("B", 20)]⟩,
   ⟨"P1_Serve_win3.xls", [("A", 3), ("B", 30)]⟩,
   ⟨"P1_Serve_win4.xls", [("A", 4), ("B", 40)]⟩]

def P1demo : PartDir := ⟨"P1", [("win", winFiles4)]⟩

/-- The timeline file listing the four win trials in numeric order. -/
def tlFileC5 : TimelineFile :=
  ⟨"p1_serve_timeline.xls",
   [("Type", ["win", "win", "win", "win"]), ("Trial", ["1", "2", "3", "4"])]⟩

def tlC5 : Option (List TimelineFile) := some [tlFileC5]

/-- A participant whose first block (N = 1) carries variable A while the
last block carries only B: `last_df.loc["A"]` raises `KeyError`. -/
def keErrPart : PartDir :=
  ⟨"P1", [("win",
    [⟨"P1_serve_win1.xls", [("A", 1)]⟩,
     ⟨"P1_serve_win2.xls", [("A", 2)]⟩,
     ⟨"P1_serve_win3.xls", [("B", 3)]⟩,
     ⟨"P1_serve_win4.xls", [("B", 4)]⟩])]⟩

/-- Outcome-mode parameters with N = 1. -/
def paramsOutcome1 : AnalysisParams := ⟨"outcome", "Win", 1, none⟩

def rootC3 : List REntry := [.rdir ⟨"serve", [.pdir keErrPart]⟩]

/-- A participant whose aggregation succeeds (contributes variable A). -/
def goodPartC4 : PartDir :=
  ⟨"P4a", [("win",
    [⟨"P4a_serve_win1.xls", [("A", 1)]⟩,
     ⟨"P4a_serve_win2.xls", [("A", 2)]⟩])]⟩

/-- A participant whose aggregation raises `KeyError` (unclassified). -/
def badPartC4 : PartDir :=
  ⟨"P4b", [("win",
    [⟨"P4b_serve_win1.xls", [("A", 1)]⟩,
     ⟨"P4b_serve_win2.xls", [("A", 2)]⟩,
     ⟨"P4b_serve_win3.xls", [("B", 3)]⟩,
     ⟨"P4b_serve_win4.xls", [("B", 4)]⟩])]⟩

def rootC4 : List REntry := [.rdir ⟨"serve", [.pdir goodPartC4, .pdir badPartC4]⟩]

def badPartC10 : PartDir :=
  ⟨"P7", [("win",
    [⟨"P7_serve_win1.xls", [("A", 1)]⟩,
     ⟨"P7_serve_win2.xls", [("A", 2)]⟩,
     ⟨"P7_serve_win3.xls", [("B", 3)]⟩,
     ⟨"P7_serve_win4.xls", [("B", 4)]⟩])]⟩

def rootC10 : List REntry := [.rdir ⟨"serve", [.pdir badPartC10]⟩]

def rootC10w : List REntry := [.rdir ⟨"serve", [.pdir goodPartC4]⟩]

/-- A participant with an "a" subdirectory (for identifier "1a") and a
"loss" subdirectory holding only trial 12. -/
def partC8 : PartDir :=
  ⟨"P1", [("a", [⟨"P1_Serve_a1.xls", [("A", 1)]⟩]),
          ("loss", [⟨"P1_Serve_loss12.xls", [("B", 2)]⟩])]⟩

/-- The block means of `P1demo` under outcome mode with N = 2. -/
def dC9 : List (String × (ℚ × ℚ)) := [("A", (mkRat 3 2, mkRat 7 2)), ("B", (15, 35))]

/-! Helper lemmas. -/

theorem rat_mul_den (a : ℚ) : (a : ℚ) * (a.den : ℚ) = (a.num : ℚ) := by
  nth_rewrite 1 [← Rat.num_div_den a]
  exact div_mul_cancel₀ (a.num : ℚ) (by positivity : ((a.den : ℚ)) ≠ 0)

theorem qAdd_eq (a b : ℚ) : qAdd a b = a + b := by
  unfold qAdd
  rw [Rat.mkRat_eq_div]
  push_cast
  rw [div_eq_iff (by positivity : ((a.den : ℚ)) * (b.den : ℚ) ≠ 0)]
  calc (↑a.num * ↑b.den + ↑b.num * ↑a.den : ℚ)
      = (a * a.den) * b.den + (b * b.den) * a.den := by rw [rat_mul_den, rat_mul_den]
    _ = (a + b) * (↑a.den * ↑b.den) := by ring

theorem qSub_eq (a b : ℚ) : qSub a b = a - b := by
  unfold qSub
  rw [Rat.mkRat_eq_div]
  push_cast
  rw [div_eq_iff (by positivity : ((a.den : ℚ)) * (b.den : ℚ) ≠ 0)]
  calc (↑a.num * ↑b.den - ↑b.num * ↑a.den : ℚ)
      = (a * a.den) * b.den - (b * b.den) * a.den := by rw [rat_mul_den, rat_mul_den]
    _ = (a - b) * (↑a.den * ↑b.den) := by ring

theorem qSum_eq (l : List ℚ) : qSum l = l.sum := by
  induction l with
  | nil => rfl
  | cons a as ih =>
    show qAdd a (qSum as) = _
    rw [qAdd_eq, ih, List.sum_cons]

theorem qMean_eq (l : List ℚ) : qMean l = l.sum / (l.length : ℚ) := by
  unfold qMean
  rw [Rat.mkRat_eq_div, ← qSum_eq]
  push_cast
  rw [div_mul_eq_div_div]
  rw [Rat.num_div_den]

theorem mkRat_one_twenty : (mkRat 1 20 : ℚ) = 1 / 20 := by
  rw [Rat.mkRat_eq_div]
  norm_num

theorem insertByKey_length (key : TrialFile → Int) (x : TrialFile) :
    ∀ (l : List TrialFile), (insertByKey key x l).length = l.length + 1 := by
  intro l
  induction l with
  | nil => rfl
  | cons y ys ih =>
    simp only [insertByKey]
    split
    · simp [ih]
    · simp

theorem sortByKey_length (key : TrialFile → Int) :
    ∀ (l : List TrialFile), (sortByKey key l).length = l.length := by
  intro l
  induction l with
  | nil => rfl
  | cons x xs ih => simp [sortByKey, insertByKey_length, ih]

theorem sortedValid_length (dirFiles : List TrialFile) :
    (sortedValid dirFiles).length = (validTrialFiles dirFiles).length :=
  sortByKey_length _ _

theorem isEmpty_false_of_length_pos {α : Type} {l : List α} (h : 0 < l.length) :
    l.isEmpty = false := by
  cases l with
  | nil => simp at h
  | cons a as => rfl

theorem exceptMapM_ok_length {α β : Type} (g : α → Except PyErr β) :
    ∀ (l : List α) (r : List β), exceptMapM g l = .ok r → r.length = l.length := by
  intro l
  induction l with
  | nil =>
    intro r h
    simp only [exceptMapM] at h
    cases h
    rfl
  | cons a as ih =>
    intro r h
    simp only [exceptMapM] at h
    cases hg : g a with
    | error e => rw [hg] at h; cases h
    | ok b =>
      rw [hg] at h
      cases hm : exceptMapM g as with
      | error e => rw [hm] at h; cases h
      | ok bs =>
        rw [hm] at h
        cases h
        simp [ih bs hm]

theorem exceptMapM_take {α β : Type} (g : α → Except PyErr β) :
    ∀ (n : Nat) (l : List α) (r : List β), exceptMapM g l = .ok r →
      exceptMapM g (l.take n) = .ok (r.take n) := by
  intro n l
  induction l generalizing n with
  | nil =>
    intro r h
    simp only [exceptMapM] at h
    cases h
    simp [exceptMapM]
  | cons a as ih =>
    intro r h
    simp only [exceptMapM] at h
    cases hg : g a with
    | error e => rw [hg] at h; cases h
    | ok b =>
      rw [hg] at h
      cases hm : exceptMapM g as with
      | error e => rw [hm] at h; cases h
      | ok bs =>
        rw [hm] at h
        cases h
        cases n with
        | zero => simp [exceptMapM]
        | succ m =>
          simp only [List.take_succ_cons, exceptMapM, hg, ih m bs hm]

theorem exceptMapM_drop {α β : Type} (g : α → Except PyErr β) :
    ∀ (n : Nat) (l : List α) (r : List β), exceptMapM g l = .ok r →
      exceptMapM g (l.drop n) = .ok (r.drop n) := by
  intro n l
  induction l generalizing n with
  | nil =>
    intro r h
    simp only [exceptMapM] at h
    cases h
    simp [exceptMapM]
  | cons a as ih =>
    intro r h
    simp only [exceptMapM] at h
    cases hg : g a with
    | error e => rw [hg] at h; cases h
    | ok b =>
      rw [hg] at h
      cases hm : exceptMapM g as with
      | error e => rw [hm] at h; cases h
      | ok bs =>
        rw [hm] at h
        cases h
        cases n with
        | zero => simp only [List.drop_zero, exceptMapM, hg, hm]
        | succ m => simp only [List.drop_succ_cons, ih m bs hm]

theorem mem_insertStr {v x : String} :
    ∀ {l : List String}, v ∈ insertStr x l ↔ v = x ∨ v ∈ l := by
  intro l
  induction l with
  | nil => simp [insertStr]
  | cons y ys ih =>
    simp only [insertStr]
    split
    · simp [List.mem_cons]
    · simp only [List.mem_cons, ih]
      tauto

theorem mem_sortStrs {v : String} : ∀ {l : List String}, v ∈ sortStrs l ↔ v ∈ l := by
  intro l
  induction l with
  | nil => simp [sortStrs]
  | cons x xs ih =>
    show v ∈ insertStr x (sortStrs xs) ↔ _
    rw [mem_insertStr, ih]
    simp [List.mem_cons]

theorem dedupAppend_cons (acc : List String) (k : String) (ks : List String) :
    dedupAppend acc (k :: ks) = dedupAppend (if k ∈ acc then acc else acc ++ [k]) ks := rfl

theorem mem_dedupAppend {v : String} :
    ∀ (ks acc : List String), v ∈ dedupAppend acc ks ↔ v ∈ acc ∨ v ∈ ks := by
  intro ks
  induction ks with
  | nil => intro acc; simp [dedupAppend]
  | cons k ks ih =>
    intro acc
    rw [dedupAppend_cons, ih]
    split
    · simp only [List.mem_cons]
      constructor
      · rintro (hv | hv)
        · exact Or.inl hv
        · exact Or.inr (Or.inr hv)
      · rintro (hv | hv | hv)
        · exact Or.inl hv
        · exact Or.inl (by rwa [hv])
        · exact Or.inr hv
    · simp only [List.mem_append, List.mem_singleton, List.mem_cons]
      tauto

theorem mem_foldl_dedupAppend {v : String} :
    ∀ (ss : List (List String)) (acc : List String),
      v ∈ ss.foldl dedupAppend acc ↔ v ∈ acc ∨ ∃ ks ∈ ss, v ∈ ks := by
  intro ss
  induction ss with
  | nil => intro acc; simp
  | cons s ss ih =>
    intro acc
    simp only [List.foldl_cons, ih, mem_dedupAppend]
    constructor
    · rintro ((hv | hv) | ⟨ks, hks, hv⟩)
      · exact Or.inl hv
      · exact Or.inr ⟨s, List.mem_cons_self _ _, hv⟩
      · exact Or.inr ⟨ks, List.mem_cons_of_mem _ hks, hv⟩
    · rintro (hv | ⟨ks, hks, hv⟩)
      · exact Or.inl (Or.inl hv)
      · rcases List.mem_cons.mp hks with h | h
        · exact Or.inl (Or.inr (by rwa [← h]))
        · exact Or.inr ⟨ks, h, hv⟩

theorem mem_unionKeys {v : String} (ss : List (List String)) :
    v ∈ unionKeys ss ↔ ∃ ks ∈ ss, v ∈ ks := by
  cases ss with
  | nil => simp [unionKeys]
  | cons k rest =>
    simp only [unionKeys]
    split
    · rename_i hall
      constructor
      · intro hv; exact ⟨k, List.mem_cons_self _ _, hv⟩
      · rintro ⟨ks, hks, hv⟩
        rcases List.mem_cons.mp hks with h | h
        · rwa [← h]
        · rw [hall ks h] at hv; exact hv
    · rw [mem_sortStrs, mem_foldl_dedupAppend]
      simp

theorem lookup_some_iff_mem {v : String} :
    ∀ {s : List (String × ℚ)}, (∃ q, List.lookup v s = some q) ↔ v ∈ seriesKeys s := by
  intro s
  induction s with
  | nil => simp [seriesKeys]
  | cons p ps ih =>
    obtain ⟨k, q⟩ := p
    simp only [seriesKeys, List.map_cons, List.mem_cons]
    by_cases h : v = k
    · subst h
      simp [List.lookup_cons]
    · have hbeq : (v == k) = false := by simp [h]
      simp only [List.lookup_cons, hbeq]
      rw [ih]
      simp [seriesKeys, h]

theorem blockVals_ne_nil {v : String} {block : List (List (String × ℚ))}
    (h : ∃ s ∈ block, v ∈ seriesKeys s) : blockVals block v ≠ [] := by
  obtain ⟨s, hs, hv⟩ := h
  obtain ⟨q, hq⟩ := lookup_some_iff_mem.mpr hv
  have hmem : q ∈ blockVals block v :=
    List.mem_filterMap.mpr ⟨s, hs, by simpa [lookupVar] using hq⟩
  exact List.ne_nil_of_mem hmem

theorem get_zipWith_own {α β γ : Type} (f : α → β → γ) :
    ∀ (l1 : List α) (l2 : List β) (i : Nat) (h : i < (List.zipWith f l1 l2).length)
      (h1 : i < l1.length) (h2 : i < l2.length),
      (List.zipWith f l1 l2).get ⟨i, h⟩ = f (l1.get ⟨i, h1⟩) (l2.get ⟨i, h2⟩) := by
  intro l1
  induction l1 with
  | nil => intro l2 i h h1 h2; simp at h1
  | cons a as ih =>
    intro l2 i h h1 h2
    cases l2 with
    | nil => simp at h2
    | cons b bs =>
      cases i with
      | zero => rfl
      | succ j =>
        exact ih bs j (by simpa using h) (by simpa using h1) (by simpa using h2)

theorem dictEntry_ok (firstB lastB : List (List (String × ℚ))) (v : String)
    (hf : blockVals firstB v ≠ []) (hl : blockVals lastB v ≠ []) :
    dictEntry firstB lastB v =
      .ok (v, (qMean (blockVals firstB v), qMean (blockVals lastB v))) := by
  have hf2 : (blockVals firstB v).isEmpty = false :=
    isEmpty_false_of_length_pos (List.length_pos.mpr hf)
  have hl2 : (blockVals lastB v).isEmpty = false :=
    isEmpty_false_of_length_pos (List.length_pos.mpr hl)
  simp [dictEntry, hf2, hl2]

theorem dictEntry_ok_key (firstB lastB : List (List (String × ℚ))) (v : String)
    (p : String × (ℚ × ℚ)) (h : dictEntry firstB lastB v = .ok p) : p.1 = v := by
  unfold dictEntry at h
  split at h
  · cases h
  · cases h; rfl

theorem exceptMapM_dictEntry_ok (firstB lastB : List (List (String × ℚ))) :
    ∀ (l : List String),
      (∀ v ∈ l, blockVals firstB v ≠ [] ∧ blockVals lastB v ≠ []) →
      exceptMapM (dictEntry firstB lastB) l =
        .ok (l.map (fun v => (v, (qMean (blockVals firstB v), qMean (blockVals lastB v))))) := by
  intro l
  induction l with
  | nil => intro _; rfl
  | cons v vs ih =>
    intro hl
    have hv := hl v (List.mem_cons_self _ _)
    simp only [exceptMapM, dictEntry_ok firstB lastB v hv.1 hv.2,
      ih (fun u hu => hl u (List.mem_cons_of_mem _ hu)), List.map_cons]

theorem dictBuild_ok (firstB lastB : List (List (String × ℚ)))
    (h : ∀ v ∈ unionKeys (firstB.map seriesKeys),
        blockVals firstB v ≠ [] ∧ blockVals lastB v ≠ []) :
    dictBuild firstB lastB =
      .ok ((unionKeys (firstB.map seriesKeys)).map
        (fun v => (v, (qMean (blockVals firstB v), qMean (blockVals lastB v))))) :=
  exceptMapM_dictEntry_ok firstB lastB _ h

theorem exceptMapM_dictEntry_keys (firstB lastB : List (List (String × ℚ))) :
    ∀ (l : List String) (d : List (String × (ℚ × ℚ))),
      exceptMapM (dictEntry firstB lastB) l = .ok d → d.map Prod.fst = l := by
  intro l
  induction l with
  | nil =>
    intro d h
    simp only [exceptMapM] at h
    cases h
    rfl
  | cons v vs ih =>
    intro d h
    simp only [exceptMapM] at h
    cases he : dictEntry firstB lastB v with
    | error e => rw [he] at h; cases h
    | ok b =>
      rw [he] at h
      cases hm : exceptMapM (dictEntry firstB lastB) vs with
      | error e => rw [hm] at h; cases h
      | ok bs =>
        rw [hm] at h
        cases h
        simp [dictEntry_ok_key firstB lastB v b he, ih bs hm]

theorem dictBuild_keys {firstB lastB : List (List (String × ℚ))}
    {d : List (String × (ℚ × ℚ))} (h : dictBuild firstB lastB = .ok d) :
    d.map Prod.fst = unionKeys (firstB.map seriesKeys) :=
  exceptMapM_dictEntry_keys firstB lastB _ d h

theorem participant_loop_agree (p : AnalysisParams) (condition : String) :
    ∀ (children : List PEntry) (agg : List (String × (List ℚ × List ℚ)))
      (logs : List String) (agg2 : List (String × (List ℚ × List ℚ))),
      analysis_core.participant_loop p condition children agg = (logs, .ok agg2) →
      LearningEffectAnalysis.participant_loop p condition children agg = (logs, .ok agg2) := by
  intro children
  induction children with
  | nil => intro agg logs agg2 h; exact h
  | cons c rest ih =>
    intro agg logs agg2 h
    cases c with
    | pfile nm => exact ih _ _ _ h
    | pdir part =>
      simp only [analysis_core.participant_loop] at h
      simp only [LearningEffectAnalysis.participant_loop]
      cases hg : gatherFor p condition part with
      | ok means =>
        simp only [hg] at h ⊢
        exact ih _ _ _ h
      | error e =>
        simp only [hg] at h ⊢
        by_cases hc : isCaughtErr e = true
        · rw [if_pos hc] at h
          rw [if_pos hc]
          have h1 := congrArg Prod.fst h
          have h2 := congrArg Prod.snd h
          simp only at h1 h2
          have hcore : analysis_core.participant_loop p condition rest agg =
              ((analysis_core.participant_loop p condition rest agg).1, Except.ok agg2) := by
            rw [← h2]
          have hm := ih agg ((analysis_core.participant_loop p condition rest agg).1) agg2 hcore
          rw [hm]
          rw [Prod.mk.injEq]
          exact ⟨h1, rfl⟩
        · rw [if_neg hc] at h
          have h2 := congrArg Prod.snd h
          simp only at h2
          cases h2

theorem condition_loop_agree (o : StatsOracles) (p : AnalysisParams) :
    ∀ (root : List REntry) (logs : List String) (rows : List ResultRow),
      analysis_core.condition_loop o p root = (logs, .ok rows) →
      LearningEffectAnalysis.condition_loop o p root = (logs, .ok rows) := by
  intro root
  induction root with
  | nil => intro logs rows h; exact h
  | cons c rest ih =>
    intro logs rows h
    cases c with
    | rfile nm => exact ih _ _ h
    | rdir cd =>
      simp only [analysis_core.condition_loop] at h
      simp only [LearningEffectAnalysis.condition_loop]
      by_cases ht : (strToLower cd.name == "serve" || strToLower cd.name == "return") = true
      · rw [if_pos ht] at h
        rw [if_pos ht]
        cases hpl : (analysis_core.participant_loop p cd.name cd.children []).2 with
        | error e =>
          simp only [hpl] at h
          have h2 := congrArg Prod.snd h
          simp only at h2
          cases h2
        | ok agg =>
          simp only [hpl] at h
          have h2 := congrArg Prod.snd h
          have h1 := congrArg Prod.fst h
          simp only at h1 h2
          cases hrest : (analysis_core.condition_loop o p rest).2 with
          | error e =>
            rw [hrest] at h2
            simp [Except.map] at h2
          | ok more =>
            rw [hrest] at h2
            simp only [Except.map] at h2
            have hrest_eq : analysis_core.condition_loop o p rest =
                ((analysis_core.condition_loop o p rest).1, .ok more) := by
              rw [← hrest]
            have ihm := ih ((analysis_core.condition_loop o p rest).1) more hrest_eq
            have hpl_eq : analysis_core.participant_loop p cd.name cd.children [] =
                ((analysis_core.participant_loop p cd.name cd.children []).1, .ok agg) := by
              rw [← hpl]
            have hplm := participant_loop_agree p cd.name cd.children []
              ((analysis_core.participant_loop p cd.name cd.children []).1) agg hpl_eq
            rw [hplm, ihm]
            simp only [Except.map]
            rw [Prod.mk.injEq]
            exact ⟨h1, h2⟩
      · rw [if_neg ht] at h
        rw [if_neg ht]
        have h1 := congrArg Prod.fst h
        have h2 := congrArg Prod.snd h
        simp only at h1 h2
        have hrest_eq : analysis_core.condition_loop o p rest =
            ((analysis_core.condition_loop o p rest).1, .ok rows) := by
          rw [← h2]
        have ihm := ih ((analysis_core.condition_loop o p rest).1) rows hrest_eq
        rw [ihm]
        rw [Prod.mk.injEq]
        exact ⟨h1, rfl⟩

/-! Claim theorems. -/

/-- Claim C2: for every (condition, variable) aggregate, when the Shapiro
p-value of the elementwise differences (first − last) exceeds 0.05 the engine
runs a paired t-test with `nan_policy="omit"` and names it "Paired t-test";
otherwise it names the test "Wilcoxon" and runs the signed-rank test exactly
when some difference is nonzero, reporting statistic 0 and p-value 1 without
invoking the rank test (the result is independent of the Wilcoxon oracle)
when all differences are zero. -/
theorem C2_test_selection (o : StatsOracles) (label v : String) (fs ls : List ℚ) :
    ((o.shapiro (List.zipWith (fun a b => a - b) fs ls)).2 > (1 / 20 : ℚ) →
      (statsRow o label v fs ls).test = "Paired t-test" ∧
      ((statsRow o label v fs ls).test_stat, (statsRow o label v fs ls).p_value) =
        o.ttest_rel fs ls "omit") ∧
    (¬ (o.shapiro (List.zipWith (fun a b => a - b) fs ls)).2 > (1 / 20 : ℚ) →
      (statsRow o label v fs ls).test = "Wilcoxon" ∧
      ((∃ d ∈ List.zipWith (fun a b => a - b) fs ls, d ≠ 0) →
        ((statsRow o label v fs ls).test_stat, (statsRow o label v fs ls).p_value) =
          o.wilcoxon fs ls) ∧
      ((∀ d ∈ List.zipWith (fun a b => a - b) fs ls, d = 0) →
        (statsRow o label v fs ls).test_stat = 0 ∧
        (statsRow o label v fs ls).p_value = 1 ∧
        ∀ w, statsRow ⟨o.shapiro, o.ttest_rel, w⟩ label v fs ls =
          statsRow o label v fs ls)) := by
  have hqsub : (fun a b : ℚ => a - b) = qSub := by
    funext a b
    rw [qSub_eq]
  have hc : (1 / 20 : ℚ) = mkRat 1 20 := mkRat_one_twenty.symm
  rw [hqsub, hc]
  constructor
  · intro hp
    simp only [statsRow, if_pos hp]
    exact ⟨trivial, trivial⟩
  · intro hp
    have hW : statsRow o label v fs ls =
        ⟨label, v, fs.length, qMean fs, qMean ls,
         (o.shapiro (List.zipWith qSub fs ls)).2, "Wilcoxon",
         (if (List.zipWith qSub fs ls).any (fun d => d != 0) then
            o.wilcoxon fs ls else ((0 : ℚ), (1 : ℚ))).1,
         (if (List.zipWith qSub fs ls).any (fun d => d != 0) then
            o.wilcoxon fs ls else ((0 : ℚ), (1 : ℚ))).2⟩ := by
      simp only [statsRow, if_neg hp]
    refine ⟨by rw [hW], ?_, ?_⟩
    · rintro ⟨d, hd, hdne⟩
      have hany : (List.zipWith qSub fs ls).any (fun d => d != 0) = true := by
        rw [List.any_eq_true]
        exact ⟨d, hd, by simpa using hdne⟩
      rw [hW]
      simp only [if_pos hany]
    · intro hall
      have hany : (List.zipWith qSub fs ls).any (fun d => d != 0) = false := by
        rw [List.any_eq_false]
        intro d hd
        simp [hall d hd]
      have hne : ¬ ((List.zipWith qSub fs ls).any (fun d => d != 0) = true) := by
        rw [hany]
        exact Bool.false_ne_true
      refine ⟨by rw [hW]; simp only [if_neg hne], by rw [hW]; simp only [if_neg hne], ?_⟩
      intro w
      have hW2 : statsRow ⟨o.shapiro, o.ttest_rel, w⟩ label v fs ls =
          ⟨label, v, fs.length, qMean fs, qMean ls,
           (o.shapiro (List.zipWith qSub fs ls)).2, "Wilcoxon",
           (if (List.zipWith qSub fs ls).any (fun d => d != 0) then
              w fs ls else ((0 : ℚ), (1 : ℚ))).1,
           (if (List.zipWith qSub fs ls).any (fun d => d != 0) then
              w fs ls else ((0 : ℚ), (1 : ℚ))).2⟩ := by
        simp only [statsRow, if_neg hp]
      rw [hW, hW2]
      simp only [if_neg hne]

/-- Witness for C2: with a Shapiro oracle failing normality and all
differences zero, the row is the degenerate Wilcoxon (0, 1) — even though
the Wilcoxon oracle itself would return (5, 5). -/
theorem C2_test_selection_witness :
    (statsRow oC2 "serve" "A" [1, 1] [1, 1]).test = "Wilcoxon" ∧
    (statsRow oC2 "serve" "A" [1, 1] [1, 1]).test_stat = 0 ∧
    (statsRow oC2 "serve" "A" [1, 1] [1, 1]).p_value = 1 := by
  have h := (C2_test_selection oC2 "serve" "A" [1, 1] [1, 1]).2 (by norm_num [oC2])
  exact ⟨h.1, (h.2.2 (by norm_num)).1, (h.2.2 (by norm_num)).2.1⟩

/-- Claim C3 (code bug evaluation): in `analysis_core.run_analysis`, an
unclassified per-participant failure (here the `KeyError` from a first-block
variable missing from the whole last block) reaches the broad
`except Exception` handler, which evaluates `traceback.format_exc()` without
`analysis_core.py` ever importing `traceback`: the handler raises
`NameError` and the run aborts instead of continuing. -/
theorem C3_core_catchall_aborts :
    analysis_core.run_analysis oZero paramsOutcome1 rootC3 =
      (["Processing Condition: serve...",
        "  - An unexpected error occurred with P 'P1'. Skipping."],
       .error (.nameError "name 'traceback' is not defined")) := by rfl

/-- Claim C4 (code bug evaluation): participant P4a contributes variable A,
but the later unclassified failure of P4b aborts `analysis_core.run_analysis`
through the handler's `NameError`, so no result row is emitted for A and a
non-setup failure propagates out of the orchestrator. -/
theorem C4_condition_rows_lost :
    analysis_core.run_analysis oZero paramsOutcome1 rootC4 =
      (["Processing Condition: serve...",
        "  - An unexpected error occurred with P 'P4b'. Skipping."],
       .error (.nameError "name 'traceback' is not defined")) := by rfl

/-- Counterexample for C10: on a participant failing with an unclassified
exception, the factored pipeline aborts with `NameError` while the monolithic
pipeline logs the traceback and returns an empty table, so the two
implementations are not extensionally equal. -/
theorem C10_pipelines_differ_cex :
    analysis_core.run_analysis oZero paramsOutcome1 rootC10 ≠
      LearningEffectAnalysis.run_analysis oZero paramsOutcome1 rootC10 := by
  intro h
  have h2 := congrArg Prod.snd h
  have hc : (analysis_core.run_analysis oZero paramsOutcome1 rootC10).2 =
      .error (.nameError "name 'traceback' is not defined") := rfl
  have hm : (LearningEffectAnalysis.run_analysis oZero paramsOutcome1 rootC10).2 =
      .ok [] := rfl
  rw [hc, hm] at h2
  cases h2

/-- Claim C10 (amended): whenever the factored `analysis_core.run_analysis`
completes normally — that is, no participant fails with an unclassified
exception — the monolithic `LearningEffectAnalysis.run_analysis` produces the
same log sequence and the same result table. -/
theorem C10_agree_of_core_ok (o : StatsOracles) (p : AnalysisParams)
    (root : List REntry) (logs : List String) (rows : List ResultRow)
    (h : analysis_core.run_analysis o p root = (logs, .ok rows)) :
    LearningEffectAnalysis.run_analysis o p root = (logs, .ok rows) :=
  condition_loop_agree o p root logs rows h

/-- Witness for C10: a run in which the single participant succeeds; the
monolithic pipeline's output is obtained by applying the agreement theorem
to the factored pipeline's concrete run. -/
theorem C10_agree_of_core_ok_witness :
    LearningEffectAnalysis.run_analysis oZero paramsOutcome1 rootC10w =
      (["Processing Condition: serve..."],
       .ok [⟨"serve (Win)", "A", 1, 1, 2, 0, "Wilcoxon", 0, 0⟩]) :=
  C10_agree_of_core_ok oZero paramsOutcome1 rootC10w _ _ (by rfl)

/-- Claim C1 (amended): for a participant whose lowercased outcome
subdirectory holds at least 2N (N ≥ 1) files with an extractable trailing
trial number, and in which every variable of the first block also appears
somewhere in the last block, `gather_means_outcome` returns, for each
variable of the first block's records, the pair of arithmetic means of its
values over the first N and last N files ordered ascending by extracted
trial number (each mean over the block files that carry the variable). -/
theorem C1_outcome_block_means (part : PartDir) (condition outcome : String)
    (n : Nat) (dirFiles : List TrialFile)
    (hdir : List.lookup (strToLower outcome) part.subdirs = some dirFiles)
    (hn : 1 ≤ n)
    (hlen : 2 * n ≤ (validTrialFiles dirFiles).length)
    (hcover : ∀ v ∈ unionKeys ((((sortedValid dirFiles).take n).map
        load_series_from_file).map seriesKeys),
      ∃ f ∈ pyLastSlice n (sortedValid dirFiles), v ∈ seriesKeys f.series) :
    gather_means_outcome part condition outcome n =
      .ok ((unionKeys ((((sortedValid dirFiles).take n).map
          load_series_from_file).map seriesKeys)).map
        (fun v => (v,
          (qMean (blockVals (((sortedValid dirFiles).take n).map
            load_series_from_file) v),
           qMean (blockVals ((pyLastSlice n (sortedValid dirFiles)).map
            load_series_from_file) v))))) := by
  have hslen : (sortedValid dirFiles).length = (validTrialFiles dirFiles).length :=
    sortedValid_length dirFiles
  have h1 : ¬ ((sortedValid dirFiles).isEmpty = true) := by
    rw [isEmpty_false_of_length_pos (by omega : 0 < (sortedValid dirFiles).length)]
    exact Bool.false_ne_true
  have h2 : ¬ ((sortedValid dirFiles).length < 2 * n) := by omega
  have h3 : ¬ ((((sortedValid dirFiles).take n).map load_series_from_file).isEmpty = true) := by
    rw [isEmpty_false_of_length_pos]
    · exact Bool.false_ne_true
    · rw [List.length_map, List.length_take]
      omega
  have h4 : ¬ (((pyLastSlice n (sortedValid dirFiles)).map load_series_from_file).isEmpty = true) := by
    rw [isEmpty_false_of_length_pos]
    · exact Bool.false_ne_true
    · rw [List.length_map]
      unfold pyLastSlice
      rw [if_neg (by omega : ¬ n = 0), List.length_drop]
      omega
  simp only [gather_means_outcome, hdir]
  rw [if_neg h1, if_neg h2, if_neg h3, if_neg h4]
  apply dictBuild_ok
  intro v hv
  constructor
  · apply blockVals_ne_nil
    rcases (mem_unionKeys _).mp hv with ⟨ks, hks, hvk⟩
    rcases List.mem_map.mp hks with ⟨s, hs, rfl⟩
    exact ⟨s, hs, hvk⟩
  · apply blockVals_ne_nil
    rcases hcover v hv with ⟨f, hf, hvf⟩
    exact ⟨load_series_from_file f, List.mem_map.mpr ⟨f, hf, rfl⟩, hvf⟩

/-- Counterexample for C1: participant `keErrPart` has 4 valid "win" files
(at least 2N for N = 1), yet `gather_means_outcome` raises a `KeyError`
instead of returning block means, because variable A appears in the first
block but in no file of the last block. -/
theorem C1_outcome_keyerror_cex :
    gather_means_outcome keErrPart "serve" "Win" 1 =
      .error (.unexpected "KeyError: 'A'") := by rfl

/-- Witness for C1: the spec's end-to-end participant (A = [1,2,3,4],
B = [10,20,30,40], N = 2) yields means (3/2, 7/2) for A and (15, 35) for B. -/
theorem C1_outcome_block_means_witness :
    gather_means_outcome P1demo "Serve" "Win" 2 =
      .ok [("A", (mkRat 3 2, mkRat 7 2)), ("B", (15, 35))] := by
  have h := C1_outcome_block_means P1demo "Serve" "Win" 2 winFiles4 rfl
    (by norm_num) (by decide) (by decide)
  exact h.trans (by rfl)

/-- Claim C5: given the same underlying trial files, a timeline that
resolves — in its chronological order — to exactly the numerically sorted
valid files of the outcome subdirectory makes `gather_means_timeline` and
`gather_means_outcome` produce identical results. -/
theorem C5_timeline_outcome_equiv (part : PartDir)
    (tdir : Option (List TimelineFile)) (condition outcome : String) (n : Nat)
    (dirFiles : List TrialFile) (ids : List String)
    (hdir : List.lookup (strToLower outcome) part.subdirs = some dirFiles)
    (htl : load_timeline part tdir condition = .ok ids)
    (hmap : exceptMapM (load_trial_series_from_id part condition) ids =
      .ok ((sortedValid dirFiles).map load_series_from_file))
    (hn : 1 ≤ n) (hlen : 2 * n ≤ ids.length) :
    gather_means_timeline part tdir condition n =
      gather_means_outcome part condition outcome n := by
  have hlenr := exceptMapM_ok_length _ ids _ hmap
  have hfiles_len : (sortedValid dirFiles).length = ids.length := by
    rw [← hlenr, List.length_map]
  have htake := exceptMapM_take (load_trial_series_from_id part condition) n ids _ hmap
  have hdrop := exceptMapM_drop (load_trial_series_from_id part condition)
    (ids.length - n) ids _ hmap
  have hfirst_ne : ¬ ((((sortedValid dirFiles).map load_series_from_file).take n).isEmpty = true) := by
    rw [isEmpty_false_of_length_pos]
    · exact Bool.false_ne_true
    · rw [List.length_take, List.length_map]
      omega
  have hlast_ne : ¬ ((((sortedValid dirFiles).map load_series_from_file).drop
      (ids.length - n)).isEmpty = true) := by
    rw [isEmpty_false_of_length_pos]
    · exact Bool.false_ne_true
    · rw [List.length_drop, List.length_map]
      omega
  have hlastslice : pyLastSlice n ids = ids.drop (ids.length - n) := by
    unfold pyLastSlice
    rw [if_neg (by omega : ¬ n = 0)]
  simp only [gather_means_timeline, htl]
  rw [if_neg (by omega : ¬ ids.length < 2 * n)]
  simp only [htake, hlastslice, hdrop]
  rw [if_neg hfirst_ne, if_neg hlast_ne]
  have h1 : ¬ ((sortedValid dirFiles).isEmpty = true) := by
    rw [isEmpty_false_of_length_pos (by omega : 0 < (sortedValid dirFiles).length)]
    exact Bool.false_ne_true
  have h2 : ¬ ((sortedValid dirFiles).length < 2 * n) := by omega
  have h3 : ¬ ((((sortedValid dirFiles).take n).map load_series_from_file).isEmpty = true) := by
    rw [isEmpty_false_of_length_pos]
    · exact Bool.false_ne_true
    · rw [List.length_map, List.length_take]
      omega
  have h4 : ¬ (((pyLastSlice n (sortedValid dirFiles)).map load_series_from_file).isEmpty = true) := by
    rw [isEmpty_false_of_length_pos]
    · exact Bool.false_ne_true
    · rw [List.length_map]
      unfold pyLastSlice
      rw [if_neg (by omega : ¬ n = 0), List.length_drop]
      omega
  simp only [gather_means_outcome, hdir]
  rw [if_neg h1, if_neg h2, if_neg h3, if_neg h4]
  have hmt : ((sortedValid dirFiles).map load_series_from_file).take n =
      ((sortedValid dirFiles).take n).map load_series_from_file := by
    rw [List.map_take]
  have hmd : ((sortedValid dirFiles).map load_series_from_file).drop (ids.length - n) =
      (pyLastSlice n (sortedValid dirFiles)).map load_series_from_file := by
    unfold pyLastSlice
    rw [if_neg (by omega : ¬ n = 0), List.map_drop, hfiles_len]
  rw [hmt, hmd]

/-- Witness for C5: the four-trial demo participant with a timeline listing
"win1".."win4" in numeric order gives identical timeline-mode and
outcome-mode results. -/
theorem C5_timeline_outcome_equiv_witness :
    gather_means_timeline P1demo tlC5 "Serve" 2 =
      gather_means_outcome P1demo "Serve" "Win" 2 :=
  C5_timeline_outcome_equiv P1demo tlC5 "Serve" "Win" 2 winFiles4
    ["win1", "win2", "win3", "win4"] rfl (by rfl) (by rfl) (by norm_num) (by decide)

/-- Claim C6: `gather_means_outcome` fails with `NotFoundError` when the
lowercased outcome subdirectory is absent, with `NotFoundError` when zero
files with an extractable trailing trial number remain after filtering, and
with `InsufficientDataError` when a nonzero number smaller than 2N remains;
a file without an extractable trailing number is simply filtered out and
never changes the result, let alone raises. -/
theorem C6_outcome_error_cases (part : PartDir) (condition outcome : String)
    (n : Nat) (dirFiles : List TrialFile) :
    (List.lookup (strToLower outcome) part.subdirs = none →
      resultIsNotFound (gather_means_outcome part condition outcome n) = true) ∧
    (List.lookup (strToLower outcome) part.subdirs = some dirFiles →
      validTrialFiles dirFiles = [] →
      resultIsNotFound (gather_means_outcome part condition outcome n) = true) ∧
    (List.lookup (strToLower outcome) part.subdirs = some dirFiles →
      validTrialFiles dirFiles ≠ [] →
      (validTrialFiles dirFiles).length < 2 * n →
      resultIsInsufficient (gather_means_outcome part condition outcome n) = true) ∧
    (∀ (pname : String) (d1 d2 : List TrialFile) (f : TrialFile)
        (rest : List (String × List TrialFile)),
      extract_trial_number f.name = -1 →
      gather_means_outcome ⟨pname, (strToLower outcome, d1 ++ f :: d2) :: rest⟩
          condition outcome n =
        gather_means_outcome ⟨pname, (strToLower outcome, d1 ++ d2) :: rest⟩
          condition outcome n) := by
  refine ⟨?_, ?_, ?_, ?_⟩
  · intro h
    simp [gather_means_outcome, h, resultIsNotFound]
  · intro h hv
    have hempty : sortedValid dirFiles = [] := by
      unfold sortedValid
      rw [hv]
      rfl
    simp [gather_means_outcome, h, hempty, resultIsNotFound]
  · intro h hv hlen
    have hslen : (sortedValid dirFiles).length = (validTrialFiles dirFiles).length :=
      sortedValid_length dirFiles
    have h1 : ¬ ((sortedValid dirFiles).isEmpty = true) := by
      rw [isEmpty_false_of_length_pos]
      · exact Bool.false_ne_true
      · rw [hslen]
        exact List.length_pos.mpr hv
    have h2 : (sortedValid dirFiles).length < 2 * n := by omega
    simp only [gather_means_outcome, h]
    rw [if_neg h1, if_pos h2]
    rfl
  · intro pname d1 d2 f rest hf
    have hvf : validTrialFiles (d1 ++ f :: d2) = validTrialFiles (d1 ++ d2) := by
      unfold validTrialFiles
      have hbne : (extract_trial_number f.name != -1) = false := by
        rw [hf]
        rfl
      cases hg : globXls f.name with
      | false => simp [List.filter_append, List.filter_cons, hg]
      | true => simp [List.filter_append, List.filter_cons, hg, hbne]
    have hlk : ∀ files : List TrialFile, List.lookup (strToLower outcome)
        ((strToLower outcome, files) :: rest) = some files := by
      intro files
      rw [List.lookup_cons]
      simp
    simp only [gather_means_outcome, hlk, sortedValid, hvf]

/-- Witness for C6: a participant with no subdirectories fails with
`NotFoundError`. -/
theorem C6_outcome_error_cases_witness :
    resultIsNotFound (gather_means_outcome ⟨"P6", []⟩ "Serve" "Win" 5) = true :=
  (C6_outcome_error_cases ⟨"P6", []⟩ "Serve" "Win" 5 []).1 rfl

/-- Claim C7: when the timeline file is found, `load_timeline` returns the
composite identifiers — trimmed lowercased value of the first column whose
name contains "type" concatenated with the trimmed value of the first column
whose name contains "trial" (case-insensitive substring match) — in exactly
the row order of the record, and fails with `SchemaError` when either column
is absent. -/
theorem C7_load_timeline_ids (part : PartDir) (tdir : Option (List TimelineFile))
    (condition : String) (tf : TimelineFile)
    (hfind : find_timeline_file part tdir condition = .ok tf) :
    (∀ tc ic, findColumn "type" tf.cols = some tc →
      findColumn "trial" tf.cols = some ic →
      ∃ ids, load_timeline part tdir condition = .ok ids ∧
        ids.length = min tc.2.length ic.2.length ∧
        ∀ (i : Nat) (h1 : i < ids.length) (h2 : i < tc.2.length)
          (h3 : i < ic.2.length),
          ids.get ⟨i, h1⟩ =
            strToLower (strTrim (tc.2.get ⟨i, h2⟩)) ++ strTrim (ic.2.get ⟨i, h3⟩)) ∧
    ((findColumn "type" tf.cols = none ∨ findColumn "trial" tf.cols = none) →
      resultIsSchemaErr (load_timeline part tdir condition) = true) := by
  constructor
  · intro tc ic htc hic
    refine ⟨List.zipWith (fun ev ix => strToLower (strTrim ev) ++ strTrim ix) tc.2 ic.2,
      ?_, ?_, ?_⟩
    · simp only [load_timeline, hfind, htc, hic]
    · exact List.length_zipWith _ _ _
    · intro i h1 h2 h3
      exact get_zipWith_own _ tc.2 ic.2 i h1 h2 h3
  · intro hmiss
    rcases hmiss with h | h
    · simp only [load_timeline, hfind, h]
      cases hic : findColumn "trial" tf.cols <;> rfl
    · simp only [load_timeline, hfind, h]
      cases htc : findColumn "type" tf.cols <;> rfl

/-- Witness for C7: the demo timeline file yields four identifiers. -/
theorem C7_load_timeline_ids_witness :
    ∃ ids, load_timeline P1demo tlC5 "Serve" = .ok ids ∧ ids.length = 4 := by
  obtain ⟨ids, hok, hlen, _⟩ :=
    (C7_load_timeline_ids P1demo tlC5 "Serve" tlFileC5 rfl).1
      ("Type", ["win", "win", "win", "win"]) ("Trial", ["1", "2", "3", "4"])
      (by rfl) (by rfl)
  exact ⟨ids, hok, hlen.trans (by rfl)⟩

/-- Counterexample for C8: (1) identifier "1a" has an empty alphabetic
prefix, yet `load_trial_series_from_id` does not raise `FormatError` — it
succeeds, because the code collects all alphabetic/digit characters rather
than splitting prefix from suffix; (2) for identifier "loss1" the file
"P1_Serve_loss12.xls" does start (case-insensitively) with the dotless
candidate prefix "P1_Serve_loss1" the claim describes, yet the function
raises `NotFoundError`, because the code's candidate patterns end with a
literal dot. -/
theorem C8_trial_id_cex :
    (("1a".toList.takeWhile Char.isAlpha = []) ∧
      load_trial_series_from_id partC8 "Serve" "1a" = .ok [("A", (1 : ℚ))]) ∧
    ((strStartsWith (strToLower "P1_Serve_loss12.xls") (strToLower "P1_Serve_loss1") = true) ∧
      resultIsNotFound (load_trial_series_from_id partC8 "Serve" "loss1") = true) := by
  refine ⟨⟨by rfl, by rfl⟩, ⟨by rfl, by rfl⟩⟩

/-- Claim C8 (amended): `load_trial_series_from_id` extracts the subsequence
of alphabetic characters (outcome category) and the subsequence of digit
characters (trial index) of the identifier, failing with `FormatError` when
either is empty; it fails with `NotFoundError` when the category
subdirectory is absent, and otherwise returns the series of the first
globbed file whose lowercased name starts with one of the two candidate
patterns `{participant}_{condition}_{category}{index}.` or
`{participant}_{condition}_{first letter}{index}.` (each ending in a literal
dot), failing with `NotFoundError` when none matches. -/
theorem C8_trial_id_resolution (part : PartDir) (condition trial_id : String)
    (oc ns pf pa : String)
    (hoc : oc = String.mk (trial_id.toList.filter Char.isAlpha))
    (hns : ns = String.mk (trial_id.toList.filter Char.isDigit))
    (hpf : pf = part.name ++ "_" ++ condition ++ "_" ++ oc ++ ns ++ ".")
    (hpa : pa = part.name ++ "_" ++ condition ++ "_" ++
      String.mk (oc.toList.take 1) ++ ns ++ ".") :
    (trial_id.toList.filter Char.isAlpha = [] ∨
        trial_id.toList.filter Char.isDigit = [] →
      resultIsFormatErr (load_trial_series_from_id part condition trial_id) = true) ∧
    (trial_id.toList.filter Char.isAlpha ≠ [] →
      trial_id.toList.filter Char.isDigit ≠ [] →
      List.lookup oc part.subdirs = none →
      resultIsNotFound (load_trial_series_from_id part condition trial_id) = true) ∧
    (∀ (files : List TrialFile) (f : TrialFile),
      trial_id.toList.filter Char.isAlpha ≠ [] →
      trial_id.toList.filter Char.isDigit ≠ [] →
      List.lookup oc part.subdirs = some files →
      (files.filter (fun g => globXls g.name)).find? (fun g =>
        strStartsWith (strToLower g.name) (strToLower pf) ||
        strStartsWith (strToLower g.name) (strToLower pa)) = some f →
      load_trial_series_from_id part condition trial_id = .ok f.series) ∧
    (∀ (files : List TrialFile),
      trial_id.toList.filter Char.isAlpha ≠ [] →
      trial_id.toList.filter Char.isDigit ≠ [] →
      List.lookup oc part.subdirs = some files →
      (files.filter (fun g => globXls g.name)).find? (fun g =>
        strStartsWith (strToLower g.name) (strToLower pf) ||
        strStartsWith (strToLower g.name) (strToLower pa)) = none →
      resultIsNotFound (load_trial_series_from_id part condition trial_id) = true) := by
  subst hoc hns hpf hpa
  refine ⟨?_, ?_, ?_, ?_⟩
  · intro h
    have hcond : ((trial_id.toList.filter Char.isAlpha).isEmpty ||
        (trial_id.toList.filter Char.isDigit).isEmpty) = true := by
      rcases h with h | h
      · rw [h]
        rfl
      · rw [h]
        exact Bool.or_true _
    simp only [load_trial_series_from_id]
    rw [if_pos hcond]
    rfl
  · intro ha hd hlk
    have hne : ¬ (((trial_id.toList.filter Char.isAlpha).isEmpty ||
        (trial_id.toList.filter Char.isDigit).isEmpty) = true) := by
      rw [isEmpty_false_of_length_pos (List.length_pos.mpr ha),
        isEmpty_false_of_length_pos (List.length_pos.mpr hd)]
      simp
    simp only [load_trial_series_from_id]
    rw [if_neg hne]
    simp only [hlk]
    rfl
  · intro files f ha hd hlk hfind
    have hne : ¬ (((trial_id.toList.filter Char.isAlpha).isEmpty ||
        (trial_id.toList.filter Char.isDigit).isEmpty) = true) := by
      rw [isEmpty_false_of_length_pos (List.length_pos.mpr ha),
        isEmpty_false_of_length_pos (List.length_pos.mpr hd)]
      simp
    simp only [load_trial_series_from_id]
    rw [if_neg hne]
    simp only [hlk, hfind]
    rfl
  · intro files ha hd hlk hfind
    have hne : ¬ (((trial_id.toList.filter Char.isAlpha).isEmpty ||
        (trial_id.toList.filter Char.isDigit).isEmpty) = true) := by
      rw [isEmpty_false_of_length_pos (List.length_pos.mpr ha),
        isEmpty_false_of_length_pos (List.length_pos.mpr hd)]
      simp
    simp only [load_trial_series_from_id]
    rw [if_neg hne]
    simp only [hlk, hfind]
    rfl

/-- Witness for C8: identifier "a1" resolves to the matching file's series. -/
theorem C8_trial_id_resolution_witness :
    load_trial_series_from_id partC8 "Serve" "a1" = .ok [("A", (1 : ℚ))] :=
  (C8_trial_id_resolution partC8 "Serve" "a1" "a" "1" "P1_Serve_a1." "P1_Serve_a1."
      rfl rfl rfl rfl).2.2.1
    [⟨"P1_Serve_a1.xls", [("A", 1)]⟩] ⟨"P1_Serve_a1.xls", [("A", 1)]⟩
    (by decide) (by decide) (by rfl) (by rfl)

/-- Claim C9: whenever block gathering succeeds, the variable set of the
returned mapping is exactly the set of variables appearing in the first
block's records — in outcome mode the union over the first N sorted files,
in timeline mode the union over the series loaded for the first N timeline
identifiers — so a variable appearing only in the last block never yields a
mean pair. -/
theorem C9_first_block_variables (part : PartDir) (condition outcome : String)
    (n : Nat) (dirFiles : List TrialFile) (d : List (String × (ℚ × ℚ)))
    (hdir : List.lookup (strToLower outcome) part.subdirs = some dirFiles)
    (hok : gather_means_outcome part condition outcome n = .ok d) :
    (∀ v, v ∈ d.map Prod.fst ↔
      ∃ f ∈ (sortedValid dirFiles).take n, v ∈ seriesKeys f.series) ∧
    (∀ (tdir : Option (List TimelineFile)) (ids : List String)
        (sl : List (List (String × ℚ))) (d2 : List (String × (ℚ × ℚ))),
      load_timeline part tdir condition = .ok ids →
      exceptMapM (load_trial_series_from_id part condition) (ids.take n) = .ok sl →
      gather_means_timeline part tdir condition n = .ok d2 →
      ∀ v, v ∈ d2.map Prod.fst ↔ ∃ s ∈ sl, v ∈ seriesKeys s) := by
  constructor
  · simp only [gather_means_outcome, hdir] at hok
    by_cases h1 : (sortedValid dirFiles).isEmpty = true
    · rw [if_pos h1] at hok
      cases hok
    · rw [if_neg h1] at hok
      by_cases h2 : (sortedValid dirFiles).length < 2 * n
      · rw [if_pos h2] at hok
        cases hok
      · rw [if_neg h2] at hok
        by_cases h3 : ((((sortedValid dirFiles).take n).map load_series_from_file).isEmpty = true)
        · rw [if_pos h3] at hok
          cases hok
        · rw [if_neg h3] at hok
          by_cases h4 : (((pyLastSlice n (sortedValid dirFiles)).map
              load_series_from_file).isEmpty = true)
          · rw [if_pos h4] at hok
            cases hok
          · rw [if_neg h4] at hok
            intro v
            rw [dictBuild_keys hok, mem_unionKeys]
            constructor
            · rintro ⟨ks, hks, hvk⟩
              rcases List.mem_map.mp hks with ⟨s, hs, rfl⟩
              rcases List.mem_map.mp hs with ⟨f, hf, rfl⟩
              exact ⟨f, hf, hvk⟩
            · rintro ⟨f, hf, hvf⟩
              exact ⟨seriesKeys (load_series_from_file f),
                List.mem_map.mpr ⟨load_series_from_file f,
                  List.mem_map.mpr ⟨f, hf, rfl⟩, rfl⟩, hvf⟩
  · intro tdir ids sl d2 htl hmapped hok2
    simp only [gather_means_timeline, htl] at hok2
    by_cases h1 : ids.length < 2 * n
    · rw [if_pos h1] at hok2
      cases hok2
    · rw [if_neg h1] at hok2
      simp only [hmapped] at hok2
      by_cases h3 : sl.isEmpty = true
      · rw [if_pos h3] at hok2
        cases hok2
      · rw [if_neg h3] at hok2
        cases hlast : exceptMapM (load_trial_series_from_id part condition)
            (pyLastSlice n ids) with
        | error e =>
          simp only [hlast] at hok2
          cases hok2
        | ok lastB =>
          simp only [hlast] at hok2
          by_cases h4 : lastB.isEmpty = true
          · rw [if_pos h4] at hok2
            cases hok2
          · rw [if_neg h4] at hok2
            intro v
            rw [dictBuild_keys hok2, mem_unionKeys]
            constructor
            · rintro ⟨ks, hks, hvk⟩
              rcases List.mem_map.mp hks with ⟨s, hs, rfl⟩
              exact ⟨s, hs, hvk⟩
            · rintro ⟨s, hs, hvs⟩
              exact ⟨seriesKeys s, List.mem_map.mpr ⟨s, hs, rfl⟩, hvs⟩

/-- Witness for C9: variable A is present in the demo participant's first
block and therefore in the returned mapping. -/
theorem C9_first_block_variables_witness :
    "A" ∈ dC9.map Prod.fst :=
  ((C9_first_block_variables P1demo "Serve" "Win" 2 winFiles4 dC9 rfl (by rfl)).1 "A").mpr
    ⟨⟨"P1_Serve_win1.xls", [("A", 1), ("B", 10)]⟩, by decide, by decide⟩
